/-
Verification of the baby-monitor audio pipeline (AppAudio).

This file embeds the core data model and operations of the audio pipeline:
the circular audio buffer and its write cursor, the feature-window rebuild,
the label reduction over classifier scores, the debounce state machine that
drives the crying/noise event callback, and the pull-based data callback
handed to the classifier.  Samples and scores are modelled as rationals;
the fallible front-end fetch and the classifier status are modelled
explicitly.  Theorems below settle the specified properties against these
definitions.
-/
import Mathlib

namespace BabyMonitor

/-- Capacity of the circular audio buffer and of the feature window
(AUDIO_BUFFER_SIZE in AppAudio): 16000 samples, one second at 16 kHz. -/
def AUDIO_BUFFER_SIZE : Nat := 16000

/-- Index of the crying label (the PRIMARY label of the spec). -/
def CRYING_IDX : Nat := 0

/-- Index of the noise label (the BACKGROUND label of the spec). -/
def NOISE_IDX : Nat := 1

/-- Error return value of the audio front end. -/
def ESP_FAIL : Int := -1

/-- State shared between the detect task and the action task: the circular
audio buffer, its write cursor, and the feature window. Buffers are
modelled as total functions from index to sample. -/
structure DetectState where
  m_audio_buffer : Nat → Rat
  m_audio_buffer_ptr : Nat
  m_features : Nat → Rat

/-- Initial state: zeroed buffers and write cursor 0, as allocated in init. -/
def initDetectState : DetectState :=
  { m_audio_buffer := fun _ => 0, m_audio_buffer_ptr := 0, m_features := fun _ => 0 }

/-- One iteration of the inner append loop of detectTask:
the cursor is reduced modulo the capacity, the sample is written at the
reduced position, and the cursor advances past it. -/
def appendSample (s : DetectState) (x : Rat) : DetectState :=
  let p := s.m_audio_buffer_ptr % AUDIO_BUFFER_SIZE
  { s with
    m_audio_buffer := fun j => if j = p then x else s.m_audio_buffer j
    m_audio_buffer_ptr := p + 1 }

/-- Appending every sample of a fetched frame, one at a time, in order. -/
def appendFrame (s : DetectState) (frame : List Rat) : DetectState :=
  frame.foldl appendSample s

/-- Full window rebuild of detectTask: every feature slot i below the
capacity receives the buffer sample at (cursor + i) mod capacity. -/
def rebuildFeatures (s : DetectState) : DetectState :=
  { s with
    m_features := fun i =>
      if i < AUDIO_BUFFER_SIZE then
        s.m_audio_buffer ((s.m_audio_buffer_ptr + i) % AUDIO_BUFFER_SIZE)
      else s.m_features i }

/-- The feature window as a list: the first AUDIO_BUFFER_SIZE feature slots. -/
def featureWindow (s : DetectState) : List Rat :=
  List.ofFn (fun i : Fin AUDIO_BUFFER_SIZE => s.m_features i)

/-- Result of one front-end fetch: a return value and the frame data. -/
structure AfeFetchResult where
  ret_value : Int
  data : List Rat

/-- One iteration of detectTask: a null fetch result or a fetch result with
return value ESP_FAIL is skipped; otherwise the frame is appended and the
feature window rebuilt in full. -/
def detectIteration (s : DetectState) (res : Option AfeFetchResult) : DetectState :=
  match res with
  | none => s
  | some r =>
    if r.ret_value = ESP_FAIL then s
    else rebuildFeatures (appendFrame s r.data)

/-- Status reported by run_classifier: EI_IMPULSE_OK or a failure. -/
inductive EiStatus where
  | ok
  | fail
deriving DecidableEq

/-- One step of the score scan in actionTask: the scanned index replaces the
running best exactly when its score is strictly greater. -/
def reduceStep (classification : Nat → Rat) (best i : Nat) : Nat :=
  if classification i > classification best then i else best

/-- The score scan of actionTask: the result index starts at NOISE_IDX and
every label index below the label count is scanned in order. -/
def reduceScan (classification : Nat → Rat) (labelCount : Nat) : Nat :=
  (List.range labelCount).foldl (reduceStep classification) NOISE_IDX

/-- Label reduction of one actionTask iteration: on EI_IMPULSE_OK the scan
runs; on failure the scan is skipped and the result stays at NOISE_IDX. -/
def reduceLabel (status : EiStatus) (classification : Nat → Rat) (labelCount : Nat) : Nat :=
  match status with
  | EiStatus.ok => reduceScan classification labelCount
  | EiStatus.fail => NOISE_IDX

/-- Initial value of m_crying, set in init: false (the quiet state). -/
def initCrying : Bool := false

/-- The debounce switch of actionTask: on CRYING_IDX a quiet state turns
active and emits true; on NOISE_IDX an active state turns quiet and emits
false; any other index leaves the state unchanged and emits nothing.
Returns the new state and the list of emitted events. -/
def debounceStep (m_crying : Bool) (result_idx : Nat) : Bool × List Bool :=
  if result_idx = CRYING_IDX then
    if !m_crying then (true, [true]) else (m_crying, [])
  else if result_idx = NOISE_IDX then
    if m_crying then (false, [false]) else (m_crying, [])
  else
    (m_crying, [])

/-- Running the debounce switch over a sequence of reduced labels,
collecting all emitted events in order. -/
def debounceRun (m_crying : Bool) : List Nat → Bool × List Bool
  | [] => (m_crying, [])
  | l :: ls =>
    ((debounceRun (debounceStep m_crying l).1 ls).1,
     (debounceStep m_crying l).2 ++ (debounceRun (debounceStep m_crying l).1 ls).2)

/-- The state trajectory induced by a sequence of reduced labels, starting
from (and including) the given state. -/
def debounceTrajectory (m_crying : Bool) : List Nat → List Bool
  | [] => [m_crying]
  | l :: ls => m_crying :: debounceTrajectory (debounceStep m_crying l).1 ls

/-- Number of changes between adjacent states in a state sequence. -/
def stateChanges : List Bool → Nat
  | [] => 0
  | [_] => 0
  | a :: b :: rest => (if a = b then 0 else 1) + stateChanges (b :: rest)

/-- Output of one run_classifier call: a status, the per-label scores, and
the label count. -/
structure ClassifierOutput where
  status : EiStatus
  classification : Nat → Rat
  labelCount : Nat

/-- One full actionTask iteration: label reduction followed by the debounce
switch. -/
def actionIteration (m_crying : Bool) (out : ClassifierOutput) : Bool × List Bool :=
  debounceStep m_crying (reduceLabel out.status out.classification out.labelCount)

/-- Running actionTask iterations over a sequence of classifier outputs,
collecting all emitted events in order. -/
def actionRun (m_crying : Bool) : List ClassifierOutput → Bool × List Bool
  | [] => (m_crying, [])
  | o :: os =>
    ((actionRun (actionIteration m_crying o).1 os).1,
     (actionIteration m_crying o).2 ++ (actionRun (actionIteration m_crying o).1 os).2)

/-- Total embedding of the memcpy in the pull callback: reads the requested
count of samples starting at the offset, one by one; any read past the end
of the window takes the out-of-range branch, yielding none. -/
def copyFeatures (m_features : List Rat) (offset : Nat) : Nat → Option (List Rat)
  | 0 => some []
  | n + 1 =>
    match m_features[offset]? with
    | none => none
    | some x =>
      match copyFeatures m_features (offset + 1) n with
      | none => none
      | some rest => some (x :: rest)

/-- The pull callback handed to the classifier (get_data_fn in actionTask):
copies the requested slice of the feature window and returns status 0
unconditionally. -/
def get_data_fn (m_features : List Rat) (offset length : Nat) : Option (List Rat) × Int :=
  (copyFeatures m_features offset length, 0)

/-- Score vector that is zero everywhere, used as a concrete input. -/
def zeroScores : Nat → Rat := fun _ => 0

/-- Score vector with a top tie between the crying and noise labels. -/
def tieScores : Nat → Rat := fun i => if i = 0 then 1 else if i = 1 then 1 else 0

/-- Score vector on which the crying label strictly wins. -/
def primaryScores : Nat → Rat := fun i => if i = 0 then 1 else 0

/-- A classifier output whose status is a failure. -/
def failOutput : ClassifierOutput :=
  { status := EiStatus.fail, classification := zeroScores, labelCount := 2 }

/-- A front-end fetch result carrying the failure return value. -/
def failFetch : AfeFetchResult := { ret_value := ESP_FAIL, data := [] }

/-- A detect state whose cursor sits one slot before the wrap point. -/
def oneBeforeWrapState : DetectState :=
  { m_audio_buffer := fun _ => 0
    m_audio_buffer_ptr := AUDIO_BUFFER_SIZE - 1
    m_features := fun _ => 0 }

lemma appendFrame_nil (s : DetectState) : appendFrame s [] = s := rfl

lemma appendFrame_cons (s : DetectState) (x : Rat) (xs : List Rat) :
    appendFrame s (x :: xs) = appendFrame (appendSample s x) xs := rfl

lemma appendSample_ptr (s : DetectState) (x : Rat) :
    (appendSample s x).m_audio_buffer_ptr = s.m_audio_buffer_ptr % AUDIO_BUFFER_SIZE + 1 := rfl

lemma appendSample_buffer (s : DetectState) (x : Rat) (j : Nat) :
    (appendSample s x).m_audio_buffer j =
      if j = s.m_audio_buffer_ptr % AUDIO_BUFFER_SIZE then x else s.m_audio_buffer j := rfl

lemma appendFrame_ptr_mod (xs : List Rat) :
    ∀ s : DetectState,
      (appendFrame s xs).m_audio_buffer_ptr % AUDIO_BUFFER_SIZE
        = (s.m_audio_buffer_ptr + xs.length) % AUDIO_BUFFER_SIZE := by
  induction xs with
  | nil => intro s; simp [appendFrame]
  | cons x xs ih =>
    intro s
    rw [appendFrame_cons, ih, appendSample_ptr, List.length_cons]
    simp only [AUDIO_BUFFER_SIZE]
    omega

lemma appendFrame_buffer_untouched (xs : List Rat) :
    ∀ (s : DetectState) (j : Nat),
      (∀ k, k < xs.length → (s.m_audio_buffer_ptr + k) % AUDIO_BUFFER_SIZE ≠ j) →
      (appendFrame s xs).m_audio_buffer j = s.m_audio_buffer j := by
  induction xs with
  | nil => intro s j _; rfl
  | cons x xs ih =>
    intro s j h
    have hshift : ∀ k, k < xs.length →
        ((appendSample s x).m_audio_buffer_ptr + k) % AUDIO_BUFFER_SIZE ≠ j := by
      intro k hk
      rw [appendSample_ptr]
      have h2 := h (k + 1) (by simp only [List.length_cons]; omega)
      simp only [AUDIO_BUFFER_SIZE] at h2 ⊢
      omega
    rw [appendFrame_cons, ih (appendSample s x) j hshift, appendSample_buffer]
    have h0 := h 0 (by simp only [List.length_cons]; omega)
    rw [Nat.add_zero] at h0
    rw [if_neg (fun hh => h0 hh.symm)]

lemma appendFrame_buffer_recent (xs : List Rat) :
    ∀ (s : DetectState) (k : Nat), k < xs.length → xs.length ≤ k + AUDIO_BUFFER_SIZE →
      (appendFrame s xs).m_audio_buffer ((s.m_audio_buffer_ptr + k) % AUDIO_BUFFER_SIZE)
        = xs.getD k 0 := by
  induction xs with
  | nil => intro s k hk; exact absurd hk (by simp)
  | cons x xs ih =>
    intro s k hk hrec
    match k with
    | 0 =>
      rw [appendFrame_cons, Nat.add_zero]
      have huntouched : ∀ kk, kk < xs.length →
          ((appendSample s x).m_audio_buffer_ptr + kk) % AUDIO_BUFFER_SIZE
            ≠ s.m_audio_buffer_ptr % AUDIO_BUFFER_SIZE := by
        intro kk hkk
        rw [appendSample_ptr]
        simp only [List.length_cons] at hrec
        simp only [AUDIO_BUFFER_SIZE] at hrec ⊢
        omega
      rw [appendFrame_buffer_untouched xs (appendSample s x) _ huntouched,
        appendSample_buffer, if_pos rfl]
      rfl
    | k + 1 =>
      rw [appendFrame_cons]
      have hidx : (s.m_audio_buffer_ptr + (k + 1)) % AUDIO_BUFFER_SIZE
          = ((appendSample s x).m_audio_buffer_ptr + k) % AUDIO_BUFFER_SIZE := by
        rw [appendSample_ptr]
        simp only [AUDIO_BUFFER_SIZE]
        omega
      rw [hidx, ih (appendSample s x) k (by simp only [List.length_cons] at hk; omega)
        (by simp only [List.length_cons] at hrec; omega)]
      rfl

lemma appendFrame_ptr_le (xs : List Rat) :
    ∀ s : DetectState, s.m_audio_buffer_ptr ≤ AUDIO_BUFFER_SIZE →
      (appendFrame s xs).m_audio_buffer_ptr ≤ AUDIO_BUFFER_SIZE := by
  induction xs with
  | nil => intro s hs; exact hs
  | cons x xs ih =>
    intro s _
    refine ih (appendSample s x) ?_
    rw [appendSample_ptr]
    simp only [AUDIO_BUFFER_SIZE]
    omega

lemma appendFrame_ptr_exact (xs : List Rat) :
    ∀ s : DetectState, s.m_audio_buffer_ptr + xs.length ≤ AUDIO_BUFFER_SIZE →
      (appendFrame s xs).m_audio_buffer_ptr = s.m_audio_buffer_ptr + xs.length := by
  induction xs with
  | nil => intro s _; simp [appendFrame]
  | cons x xs ih =>
    intro s hs
    simp only [List.length_cons] at hs
    rw [appendFrame_cons, ih (appendSample s x)
      (by rw [appendSample_ptr]; simp only [AUDIO_BUFFER_SIZE] at hs ⊢; omega)]
    rw [appendSample_ptr]
    simp only [List.length_cons, AUDIO_BUFFER_SIZE] at hs ⊢
    omega

lemma reduceScan_zero (c : Nat → Rat) : reduceScan c 0 = NOISE_IDX := rfl

lemma reduceScan_succ (c : Nat → Rat) (n : Nat) :
    reduceScan c (n + 1) = reduceStep c (reduceScan c n) n := by
  simp [reduceScan, List.range_succ]

lemma reduceStep_score_le (c : Nat → Rat) (best i : Nat) :
    c best ≤ c (reduceStep c best i) := by
  unfold reduceStep
  split
  next h => exact le_of_lt h
  next h => exact le_refl _

lemma reduceScan_score_max (c : Nat → Rat) (n : Nat) :
    ∀ j, j < n → c j ≤ c (reduceScan c n) := by
  induction n with
  | zero => intro j hj; exact absurd hj (Nat.not_lt_zero j)
  | succ n ih =>
    intro j hj
    rw [reduceScan_succ]
    rcases Nat.lt_succ_iff_lt_or_eq.mp hj with h | h
    · exact le_trans (ih j h) (reduceStep_score_le c (reduceScan c n) n)
    · subst h
      unfold reduceStep
      split
      next hgt => exact le_refl _
      next hgt => exact le_of_not_lt hgt

lemma reduceScan_background_or_lt (c : Nat → Rat) (n : Nat) :
    reduceScan c n = NOISE_IDX ∨ reduceScan c n < n := by
  induction n with
  | zero => exact Or.inl rfl
  | succ n ih =>
    rw [reduceScan_succ]
    unfold reduceStep
    split
    next hgt => exact Or.inr (Nat.lt_succ_self n)
    next hgt =>
      rcases ih with h | h
      · exact Or.inl h
      · exact Or.inr (Nat.lt_succ_of_lt h)

lemma reduceScan_strict_above (c : Nat → Rat) (n : Nat) :
    2 ≤ reduceScan c n → ∀ j, j < reduceScan c n → c j < c (reduceScan c n) := by
  induction n with
  | zero =>
    rw [reduceScan_zero]
    intro h2
    exact absurd h2 (by decide)
  | succ n ih =>
    rw [reduceScan_succ]
    unfold reduceStep
    split
    next hgt =>
      intro _ j hj
      exact lt_of_le_of_lt (reduceScan_score_max c n j hj) hgt
    next hgt => exact ih

lemma reduceScan_eq_crying (c : Nat → Rat) (n : Nat) :
    reduceScan c n = CRYING_IDX → c NOISE_IDX < c CRYING_IDX := by
  induction n with
  | zero =>
    rw [reduceScan_zero]
    intro h
    exact absurd h (by decide)
  | succ n ih =>
    rw [reduceScan_succ]
    unfold reduceStep
    split
    next hgt =>
      intro h
      subst h
      exact hgt
    next hgt => exact ih

lemma debounceStep_emit_length (b : Bool) (l : Nat) :
    (debounceStep b l).2.length = (if (debounceStep b l).1 = b then 0 else 1) := by
  match l with
  | 0 => cases b <;> simp [debounceStep, CRYING_IDX, NOISE_IDX]
  | 1 => cases b <;> simp [debounceStep, CRYING_IDX, NOISE_IDX]
  | n + 2 => cases b <;> simp [debounceStep, CRYING_IDX, NOISE_IDX]

lemma debounceTrajectory_cons_shape (ls : List Nat) (s : Bool) :
    ∃ t, debounceTrajectory s ls = s :: t := by
  cases ls with
  | nil => exact ⟨[], rfl⟩
  | cons l ls => exact ⟨debounceTrajectory (debounceStep s l).1 ls, rfl⟩

lemma debounceRun_events_eq_changes (labels : List Nat) :
    ∀ b : Bool,
      (debounceRun b labels).2.length = stateChanges (debounceTrajectory b labels) := by
  induction labels with
  | nil => intro b; rfl
  | cons l ls ih =>
    intro b
    obtain ⟨t, ht⟩ := debounceTrajectory_cons_shape ls (debounceStep b l).1
    have hrun : (debounceRun b (l :: ls)).2
        = (debounceStep b l).2 ++ (debounceRun (debounceStep b l).1 ls).2 := rfl
    have htraj : debounceTrajectory b (l :: ls)
        = b :: debounceTrajectory (debounceStep b l).1 ls := rfl
    rw [hrun, List.length_append, debounceStep_emit_length, ih, htraj, ht]
    have hchanges : stateChanges (b :: (debounceStep b l).1 :: t)
        = (if b = (debounceStep b l).1 then 0 else 1)
          + stateChanges ((debounceStep b l).1 :: t) := rfl
    rw [hchanges]
    by_cases h : (debounceStep b l).1 = b
    · rw [if_pos h, if_pos h.symm]
    · rw [if_neg h, if_neg (fun hh => h hh.symm)]

lemma actionRun_fail_quiet (outs : List ClassifierOutput) :
    (∀ o ∈ outs, o.status = EiStatus.fail) → actionRun false outs = (false, []) := by
  induction outs with
  | nil => intro _; rfl
  | cons o os ih =>
    intro h
    have ho : o.status = EiStatus.fail := h o (List.mem_cons_self o os)
    have h1 : actionIteration false o = (false, []) := by
      simp [actionIteration, ho, reduceLabel, debounceStep, CRYING_IDX, NOISE_IDX]
    have h2 : actionRun false os = (false, []) :=
      ih (fun o2 ho2 => h o2 (List.mem_cons_of_mem o ho2))
    simp [actionRun, h1, h2]

lemma copyFeatures_in_bounds (m_features : List Rat) :
    ∀ (len offset : Nat), offset + len ≤ m_features.length →
      copyFeatures m_features offset len = some ((m_features.drop offset).take len) := by
  intro len
  induction len with
  | zero => intro offset _; simp [copyFeatures]
  | succ n ih =>
    intro offset h
    have hofflt : offset < m_features.length := by omega
    rw [copyFeatures, List.getElem?_eq_getElem hofflt, ih (offset + 1) (by omega)]
    rw [List.drop_eq_getElem_cons hofflt]
    rfl

lemma copyFeatures_oob (m_features : List Rat) :
    ∀ (len offset : Nat), 1 ≤ len → m_features.length < offset + len →
      copyFeatures m_features offset len = none := by
  intro len
  induction len with
  | zero => intro offset h; exact absurd h (by decide)
  | succ n ih =>
    intro offset _ hoob
    rw [copyFeatures]
    by_cases hofflt : offset < m_features.length
    · rw [List.getElem?_eq_getElem hofflt, ih (offset + 1) (by omega) (by omega)]
    · rw [List.getElem?_eq_none (by omega)]

/-- C1: the debounce step behaves exactly as the specified table: from quiet
(crying = false) on the crying label it moves to active and emits event true
exactly once; from active on the noise label it moves to quiet and emits
event false exactly once; any label other than the two distinguished indices
causes no transition and no emission in either state; re-observing the label
that already produced the current state emits nothing; and the initial state
is quiet with no emission at startup. -/
theorem C1_debounce_table (b : Bool) (idx : Nat)
    (h0 : idx ≠ CRYING_IDX) (h1 : idx ≠ NOISE_IDX) :
    debounceStep false CRYING_IDX = (true, [true]) ∧
    debounceStep true NOISE_IDX = (false, [false]) ∧
    debounceStep b idx = (b, []) ∧
    debounceStep true CRYING_IDX = (true, []) ∧
    debounceStep false NOISE_IDX = (false, []) ∧
    initCrying = false ∧
    debounceRun initCrying [] = (initCrying, []) := by
  refine ⟨by decide, by decide, ?_, by decide, by decide, rfl, rfl⟩
  unfold debounceStep
  rw [if_neg h0, if_neg h1]

/-- C1 witness: the theorem applied at state active and label index 2. -/
theorem C1_debounce_table_witness :
    (2 : Nat) ≠ CRYING_IDX ∧ (2 : Nat) ≠ NOISE_IDX ∧ debounceStep true 2 = (true, []) :=
  ⟨by decide, by decide, (C1_debounce_table true 2 (by decide) (by decide)).2.2.1⟩

/-- C2: after any sequence of at least AUDIO_BUFFER_SIZE single-sample
appends, the rebuilt feature window has length exactly AUDIO_BUFFER_SIZE,
slot i holds the buffer sample at (cursor + i) mod AUDIO_BUFFER_SIZE, and
slot i equals the appended sample at position length - AUDIO_BUFFER_SIZE + i,
i.e. the window is exactly the last AUDIO_BUFFER_SIZE appended samples in
oldest-first order. -/
theorem C2_feature_window (s : DetectState) (xs : List Rat) (i : Nat)
    (hN : AUDIO_BUFFER_SIZE ≤ xs.length) (hi : i < AUDIO_BUFFER_SIZE) :
    (featureWindow (rebuildFeatures (appendFrame s xs))).length = AUDIO_BUFFER_SIZE ∧
    (rebuildFeatures (appendFrame s xs)).m_features i
      = (appendFrame s xs).m_audio_buffer
          (((appendFrame s xs).m_audio_buffer_ptr + i) % AUDIO_BUFFER_SIZE) ∧
    (rebuildFeatures (appendFrame s xs)).m_features i
      = xs.getD (xs.length - AUDIO_BUFFER_SIZE + i) 0 := by
  have hfeat : (rebuildFeatures (appendFrame s xs)).m_features i
      = (appendFrame s xs).m_audio_buffer
          (((appendFrame s xs).m_audio_buffer_ptr + i) % AUDIO_BUFFER_SIZE) := by
    simp [rebuildFeatures, hi]
  refine ⟨by exact List.length_ofFn _, hfeat, ?_⟩
  rw [hfeat]
  have hmod := appendFrame_ptr_mod xs s
  have hidx : ((appendFrame s xs).m_audio_buffer_ptr + i) % AUDIO_BUFFER_SIZE
      = (s.m_audio_buffer_ptr + (xs.length - AUDIO_BUFFER_SIZE + i)) % AUDIO_BUFFER_SIZE := by
    simp only [AUDIO_BUFFER_SIZE] at hmod hN hi ⊢
    omega
  rw [hidx]
  exact appendFrame_buffer_recent xs s (xs.length - AUDIO_BUFFER_SIZE + i)
    (by simp only [AUDIO_BUFFER_SIZE] at hN hi ⊢; omega)
    (by simp only [AUDIO_BUFFER_SIZE] at hN hi ⊢; omega)

/-- C2 witness: the theorem applied to the initial state, a frame of exactly
AUDIO_BUFFER_SIZE zero samples, and window slot 0. -/
theorem C2_feature_window_witness :
    AUDIO_BUFFER_SIZE ≤ (List.replicate AUDIO_BUFFER_SIZE (0 : Rat)).length ∧
    (0 : Nat) < AUDIO_BUFFER_SIZE ∧
    ((featureWindow (rebuildFeatures
        (appendFrame initDetectState (List.replicate AUDIO_BUFFER_SIZE 0)))).length
      = AUDIO_BUFFER_SIZE ∧
    (rebuildFeatures (appendFrame initDetectState
        (List.replicate AUDIO_BUFFER_SIZE 0))).m_features 0
      = (appendFrame initDetectState
          (List.replicate AUDIO_BUFFER_SIZE 0)).m_audio_buffer
          (((appendFrame initDetectState
              (List.replicate AUDIO_BUFFER_SIZE 0)).m_audio_buffer_ptr + 0)
            % AUDIO_BUFFER_SIZE) ∧
    (rebuildFeatures (appendFrame initDetectState
        (List.replicate AUDIO_BUFFER_SIZE 0))).m_features 0
      = (List.replicate AUDIO_BUFFER_SIZE (0 : Rat)).getD
          ((List.replicate AUDIO_BUFFER_SIZE (0 : Rat)).length - AUDIO_BUFFER_SIZE + 0) 0) :=
  ⟨by simp, by decide,
    C2_feature_window initDetectState (List.replicate AUDIO_BUFFER_SIZE 0) 0
      (by simp) (by decide)⟩

/-- C3: label reduction initializes the result index to NOISE_IDX, replaces
the running best only on a strictly greater score, and when the crying and
noise labels have equal top scores the reduced label on status OK is
NOISE_IDX. -/
theorem C3_label_reduction (classification : Nat → Rat) (labelCount best i : Nat)
    (_h2 : 2 ≤ labelCount)
    (htie : classification CRYING_IDX = classification NOISE_IDX)
    (htop : ∀ j, j < labelCount → classification j ≤ classification NOISE_IDX) :
    reduceScan classification 0 = NOISE_IDX ∧
    reduceStep classification best i
      = (if classification i > classification best then i else best) ∧
    reduceLabel EiStatus.ok classification labelCount = NOISE_IDX := by
  refine ⟨rfl, rfl, ?_⟩
  show reduceScan classification labelCount = NOISE_IDX
  rcases reduceScan_background_or_lt classification labelCount with h | hlt
  · exact h
  · by_cases hr0 : reduceScan classification labelCount = CRYING_IDX
    · exfalso
      have hcry := reduceScan_eq_crying classification labelCount hr0
      rw [htie] at hcry
      exact lt_irrefl _ hcry
    · by_cases hr1 : reduceScan classification labelCount = NOISE_IDX
      · exact hr1
      · exfalso
        have h2r : 2 ≤ reduceScan classification labelCount := by
          simp only [CRYING_IDX] at hr0
          simp only [NOISE_IDX] at hr1
          omega
        have hstrict := reduceScan_strict_above classification labelCount h2r
          NOISE_IDX (by simp only [NOISE_IDX]; omega)
        exact absurd (htop (reduceScan classification labelCount) hlt)
          (not_le_of_lt hstrict)

/-- C3 witness: the theorem applied to a score vector with a top tie
between the crying and noise labels over two labels. -/
theorem C3_label_reduction_witness :
    tieScores CRYING_IDX = tieScores NOISE_IDX ∧
    reduceLabel EiStatus.ok tieScores 2 = NOISE_IDX :=
  ⟨by decide,
    (C3_label_reduction tieScores 2 1 0 (by decide) (by decide)
      (by
        intro j hj
        rcases (by omega : j = 0 ∨ j = 1) with h | h <;> subst h <;> decide)).2.2⟩

/-- C4: on classifier failure the reduced label is NOISE_IDX, so the debounce
step receives exactly the same label as in an iteration whose status is OK
and whose reduced label is NOISE_IDX: inference failure is indistinguishable
from an explicit background classification. -/
theorem C4_fail_downgrade (classification : Nat → Rat) (labelCount : Nat)
    (classificationOk : Nat → Rat) (labelCountOk : Nat) (b : Bool)
    (hok : reduceLabel EiStatus.ok classificationOk labelCountOk = NOISE_IDX) :
    reduceLabel EiStatus.fail classification labelCount = NOISE_IDX ∧
    debounceStep b (reduceLabel EiStatus.fail classification labelCount)
      = debounceStep b (reduceLabel EiStatus.ok classificationOk labelCountOk) := by
  refine ⟨rfl, ?_⟩
  rw [hok]
  rfl

/-- C4 witness: the theorem applied at a failing iteration with an arbitrary
score vector against an OK iteration over zero labels. -/
theorem C4_fail_downgrade_witness :
    reduceLabel EiStatus.ok zeroScores 0 = NOISE_IDX ∧
    (reduceLabel EiStatus.fail zeroScores 3 = NOISE_IDX ∧
     debounceStep true (reduceLabel EiStatus.fail zeroScores 3)
       = debounceStep true (reduceLabel EiStatus.ok zeroScores 0)) :=
  ⟨by decide, C4_fail_downgrade zeroScores 3 zeroScores 0 true (by decide)⟩

/-- C5: for every finite label sequence the number of emitted events is at
most the number of state changes in the induced state trajectory, and
processing a label while already in the state that label maps to emits
nothing. -/
theorem C5_debounce_edges (labels : List Nat) (b : Bool) :
    (debounceRun b labels).2.length ≤ stateChanges (debounceTrajectory b labels) ∧
    debounceStep true CRYING_IDX = (true, []) ∧
    debounceStep false NOISE_IDX = (false, []) :=
  ⟨le_of_eq (debounceRun_events_eq_changes labels b), by decide, by decide⟩

/-- C6: from the active state, a nonempty run of iterations whose classifier
status is all failures emits exactly one event false, on the first failing
iteration, and nothing afterwards. -/
theorem C6_fail_run (outs : List ClassifierOutput) (hne : outs ≠ [])
    (hfail : ∀ o ∈ outs, o.status = EiStatus.fail) :
    actionRun true outs = (false, [false]) := by
  cases outs with
  | nil => exact absurd rfl hne
  | cons o os =>
    have ho : o.status = EiStatus.fail := hfail o (List.mem_cons_self o os)
    have h1 : actionIteration true o = (false, [false]) := by
      simp [actionIteration, ho, reduceLabel, debounceStep, CRYING_IDX, NOISE_IDX]
    have h2 : actionRun false os = (false, []) :=
      actionRun_fail_quiet os (fun o2 ho2 => hfail o2 (List.mem_cons_of_mem o ho2))
    simp [actionRun, h1, h2]

/-- C6 witness: the theorem applied to a single failing iteration. -/
theorem C6_fail_run_witness :
    [failOutput] ≠ ([] : List ClassifierOutput) ∧
    actionRun true [failOutput] = (false, [false]) :=
  ⟨by simp,
    C6_fail_run [failOutput] (by simp)
      (by
        intro o ho
        rw [List.mem_singleton] at ho
        rw [ho]
        rfl)⟩

/-- C7 counterexample: with equal top scores for the crying and noise
labels, the scanned crying label (index 0) ties the running best (the
initial noise label, index 1) and the kept index is 1, the higher one; the
whole reduction also resolves this tie to index 1.  This refutes the claim
that ties keep the earlier (lower-index) label and that no tie is ever
resolved in favor of the higher-index label. -/
theorem C7_tie_counterexample :
    tieScores CRYING_IDX = tieScores NOISE_IDX ∧
    reduceStep tieScores NOISE_IDX CRYING_IDX = NOISE_IDX ∧
    NOISE_IDX ≠ CRYING_IDX ∧
    CRYING_IDX < NOISE_IDX ∧
    reduceScan tieScores 2 = NOISE_IDX := by decide

/-- C7 amended: on an equal score the scan keeps the current running best
(which starts at the noise label, index 1, so a crying/noise top tie
resolves to the noise label, the higher index); a result index of 2 or more
strictly exceeds every lower index's score, and the result is the crying
label only when its score strictly exceeds the noise label's. -/
theorem C7_tie_amended (classification : Nat → Rat) (labelCount best i j : Nat)
    (heq : classification i = classification best) :
    reduceStep classification best i = best ∧
    (2 ≤ reduceScan classification labelCount →
      j < reduceScan classification labelCount →
      classification j < classification (reduceScan classification labelCount)) ∧
    (reduceScan classification labelCount = CRYING_IDX →
      classification NOISE_IDX < classification CRYING_IDX) := by
  refine ⟨?_, ?_, fun h => reduceScan_eq_crying classification labelCount h⟩
  · unfold reduceStep
    rw [if_neg (by rw [heq]; exact lt_irrefl _)]
  · intro h2 hj
    exact reduceScan_strict_above classification labelCount h2 j hj

/-- C7 amended witness: the theorem applied to the tied score vector with
running best 1 and scanned index 0 (the kept best on an equal score), and to
a crying-winning score vector on which the result is the crying label and
its score strictly exceeds the noise label's. -/
theorem C7_tie_amended_witness :
    tieScores 0 = tieScores 1 ∧
    reduceStep tieScores 1 0 = 1 ∧
    reduceScan primaryScores 2 = CRYING_IDX ∧
    primaryScores NOISE_IDX < primaryScores CRYING_IDX :=
  ⟨by decide, (C7_tie_amended tieScores 2 1 0 0 (by decide)).1,
   by decide, (C7_tie_amended primaryScores 2 0 0 0 (by decide)).2.2 (by decide)⟩

/-- C8 counterexample: after exactly AUDIO_BUFFER_SIZE single-sample appends
from the initial state the write cursor equals AUDIO_BUFFER_SIZE, outside
[0, AUDIO_BUFFER_SIZE); and an append at cursor AUDIO_BUFFER_SIZE - 1 leaves
the cursor at AUDIO_BUFFER_SIZE, not at (cursor + 1) mod AUDIO_BUFFER_SIZE
= 0.  This refutes the claimed cursor invariant and the claimed advance. -/
theorem C8_cursor_counterexample :
    (appendFrame initDetectState
        (List.replicate AUDIO_BUFFER_SIZE 0)).m_audio_buffer_ptr = AUDIO_BUFFER_SIZE ∧
    ¬ ((appendFrame initDetectState
        (List.replicate AUDIO_BUFFER_SIZE 0)).m_audio_buffer_ptr < AUDIO_BUFFER_SIZE) ∧
    (appendSample oneBeforeWrapState 0).m_audio_buffer_ptr
      ≠ (oneBeforeWrapState.m_audio_buffer_ptr + 1) % AUDIO_BUFFER_SIZE := by
  have h := appendFrame_ptr_exact (List.replicate AUDIO_BUFFER_SIZE (0 : Rat))
    initDetectState (by simp [initDetectState])
  have h2 : initDetectState.m_audio_buffer_ptr
      + (List.replicate AUDIO_BUFFER_SIZE (0 : Rat)).length = AUDIO_BUFFER_SIZE := by
    simp [initDetectState]
  rw [h2] at h
  refine ⟨h, by omega, ?_⟩
  rw [appendSample_ptr]
  simp only [oneBeforeWrapState, AUDIO_BUFFER_SIZE]
  omega

/-- C8 amended: the write cursor stays in [0, AUDIO_BUFFER_SIZE] (the value
AUDIO_BUFFER_SIZE itself is reached right after a write into the last slot);
each append writes the new sample at index cursor mod AUDIO_BUFFER_SIZE,
leaves every other slot unchanged, and advances the cursor to
cursor mod AUDIO_BUFFER_SIZE + 1, which is congruent to cursor + 1 modulo
AUDIO_BUFFER_SIZE, so the cursor is always reduced modulo the capacity
before use and the behavior matches a cursor in [0, AUDIO_BUFFER_SIZE)
advanced by (cursor + 1) mod AUDIO_BUFFER_SIZE. -/
theorem C8_cursor_amended (xs : List Rat) (s : DetectState) (x : Rat) (j : Nat)
    (hj : j ≠ s.m_audio_buffer_ptr % AUDIO_BUFFER_SIZE) :
    (appendFrame initDetectState xs).m_audio_buffer_ptr ≤ AUDIO_BUFFER_SIZE ∧
    (appendSample s x).m_audio_buffer_ptr
      = s.m_audio_buffer_ptr % AUDIO_BUFFER_SIZE + 1 ∧
    (appendSample s x).m_audio_buffer_ptr % AUDIO_BUFFER_SIZE
      = (s.m_audio_buffer_ptr + 1) % AUDIO_BUFFER_SIZE ∧
    (appendSample s x).m_audio_buffer (s.m_audio_buffer_ptr % AUDIO_BUFFER_SIZE) = x ∧
    (appendSample s x).m_audio_buffer j = s.m_audio_buffer j := by
  refine ⟨appendFrame_ptr_le xs initDetectState (by simp [initDetectState, AUDIO_BUFFER_SIZE]),
    rfl, ?_, ?_, ?_⟩
  · rw [appendSample_ptr]
    simp only [AUDIO_BUFFER_SIZE]
    omega
  · rw [appendSample_buffer, if_pos rfl]
  · rw [appendSample_buffer, if_neg hj]

/-- C8 amended witness: the theorem applied to the empty history, the
initial state, sample 1 and untouched slot 5. -/
theorem C8_cursor_amended_witness :
    (5 : Nat) ≠ initDetectState.m_audio_buffer_ptr % AUDIO_BUFFER_SIZE ∧
    ((appendFrame initDetectState []).m_audio_buffer_ptr ≤ AUDIO_BUFFER_SIZE ∧
     (appendSample initDetectState 1).m_audio_buffer_ptr
       = initDetectState.m_audio_buffer_ptr % AUDIO_BUFFER_SIZE + 1 ∧
     (appendSample initDetectState 1).m_audio_buffer_ptr % AUDIO_BUFFER_SIZE
       = (initDetectState.m_audio_buffer_ptr + 1) % AUDIO_BUFFER_SIZE ∧
     (appendSample initDetectState 1).m_audio_buffer
         (initDetectState.m_audio_buffer_ptr % AUDIO_BUFFER_SIZE) = 1 ∧
     (appendSample initDetectState 1).m_audio_buffer 5
       = initDetectState.m_audio_buffer 5) :=
  ⟨by decide, C8_cursor_amended [] initDetectState 1 5 (by decide)⟩

/-- C9: an iteration of the detect loop whose fetch returns null or reports
the failure value leaves the shared state completely unchanged: no sample is
appended, the cursor does not move, and the feature window is not rebuilt. -/
theorem C9_fetch_fail (s : DetectState) (r : AfeFetchResult)
    (hr : r.ret_value = ESP_FAIL) :
    detectIteration s none = s ∧ detectIteration s (some r) = s := by
  refine ⟨rfl, ?_⟩
  simp [detectIteration, hr]

/-- C9 witness: the theorem applied to the initial state and a fetch result
carrying the failure return value. -/
theorem C9_fetch_fail_witness :
    failFetch.ret_value = ESP_FAIL ∧
    (detectIteration initDetectState none = initDetectState ∧
     detectIteration initDetectState (some failFetch) = initDetectState) :=
  ⟨rfl, C9_fetch_fail initDetectState failFetch rfl⟩

/-- C10 counterexample: a request of length 0 at an offset past the window
never reads, so the out-of-range branch is not taken even though the claimed
precondition offset + length ≤ AUDIO_BUFFER_SIZE fails; the out-of-range
branch is therefore not unreachable only under that precondition. -/
theorem C10_pull_counterexample :
    (get_data_fn (List.replicate AUDIO_BUFFER_SIZE 0)
        (AUDIO_BUFFER_SIZE + 1) 0).1 ≠ none ∧
    ¬ (AUDIO_BUFFER_SIZE + 1 + 0 ≤ AUDIO_BUFFER_SIZE) := by decide

/-- C10 amended: the pull callback performs no bounds check: on a window of
length AUDIO_BUFFER_SIZE, every request with offset + length ≤
AUDIO_BUFFER_SIZE copies exactly the requested slice of the window and the
returned status is 0 for every request whatsoever; for requests of length at
least 1 the out-of-range read branch is unreachable exactly when
offset + length ≤ AUDIO_BUFFER_SIZE (a length-0 request reads nothing and
never reaches that branch). -/
theorem C10_pull_amended (m_features : List Rat) (offset length offset2 length2 : Nat)
    (features2 : List Rat)
    (hlen : m_features.length = AUDIO_BUFFER_SIZE)
    (hpre : offset + length ≤ AUDIO_BUFFER_SIZE)
    (hpos : 1 ≤ length2)
    (hlen2 : features2.length = AUDIO_BUFFER_SIZE) :
    (get_data_fn m_features offset length).1
      = some ((m_features.drop offset).take length) ∧
    (get_data_fn m_features offset length).2 = 0 ∧
    (get_data_fn features2 offset2 length2).2 = 0 ∧
    ((get_data_fn features2 offset2 length2).1 ≠ none
      ↔ offset2 + length2 ≤ AUDIO_BUFFER_SIZE) := by
  refine ⟨copyFeatures_in_bounds m_features length offset (by omega), rfl, rfl, ?_⟩
  constructor
  · intro hne
    by_contra hgt
    exact hne (copyFeatures_oob features2 length2 offset2 hpos (by omega))
  · intro hle
    have h := copyFeatures_in_bounds features2 length2 offset2 (by omega)
    show copyFeatures features2 offset2 length2 ≠ none
    rw [h]
    simp

/-- C10 amended witness: the theorem applied to a zero window of full
capacity with an in-bounds request of length 1. -/
theorem C10_pull_amended_witness :
    (List.replicate AUDIO_BUFFER_SIZE (0 : Rat)).length = AUDIO_BUFFER_SIZE ∧
    0 + 1 ≤ AUDIO_BUFFER_SIZE ∧
    ((get_data_fn (List.replicate AUDIO_BUFFER_SIZE 0) 0 1).1
       = some (((List.replicate AUDIO_BUFFER_SIZE (0 : Rat)).drop 0).take 1) ∧
     (get_data_fn (List.replicate AUDIO_BUFFER_SIZE 0) 0 1).2 = 0 ∧
     (get_data_fn (List.replicate AUDIO_BUFFER_SIZE 0) 0 1).2 = 0 ∧
     ((get_data_fn (List.replicate AUDIO_BUFFER_SIZE 0) 0 1).1 ≠ none
       ↔ 0 + 1 ≤ AUDIO_BUFFER_SIZE)) :=
  ⟨by simp, by decide,
    C10_pull_amended (List.replicate AUDIO_BUFFER_SIZE 0) 0 1 0 1
      (List.replicate AUDIO_BUFFER_SIZE 0) (by simp) (by decide) (by decide) (by simp)⟩

end BabyMonitor
